import Mathlib

/-!
Verification development for the Personal-Trainer-Tracker application
(src/app.py).  The application is a single-file fitness dashboard; the
definitions below are a shallow embedding of its data model and of the
functions the specification talks about:

  - e1rm (src/app.py lines 161-165): the Brzycki estimated one-rep-max,
  - update_settings (lines 152-159): the transactional settings overwrite,
  - get_settings (lines 148-150): the settings accessor with defaults,
  - the Dashboard weekly-volume groupby (lines 213-215),
  - write_photo / PIL Image.thumbnail size arithmetic (lines 139-146),
  - the CSV export / import pair of the Data Export/Import tab
    (lines 341-354).

Numbers: SQLite REAL / Python float values are embedded as rationals,
Python int / SQLite INTEGER as integers.  A missing value (None / NaN,
detected in the source by pd.isna) is embedded as Option.none.
-/

namespace TrainerTracker

/-! ## Derived-metric calculator: e1rm -/

/-- Embedding of e1rm (src/app.py lines 161-165):

    def e1rm(weight, reps):
        if pd.isna(weight) or pd.isna(reps) or reps <= 0:
            return np.nan
        return weight * (36 / (37 - reps))

none plays the role of NaN / a missing value; the guard mirrors the
source line for line. -/
def e1rm (weight reps : Option ℚ) : Option ℚ :=
  match weight, reps with
  | none, _ => none
  | _, none => none
  | some w, some r => if r ≤ 0 then none else some (w * (36 / (37 - r)))

/-- C1: for every weight and reps input, e1rm returns undefined (none) if
weight is missing, reps is missing, or reps is nonpositive; otherwise it
returns weight * 36 / (37 - reps). -/
theorem e1rm_c1 (weight reps : Option ℚ) :
    (weight = none → e1rm weight reps = none) ∧
    (reps = none → e1rm weight reps = none) ∧
    (∀ w r : ℚ, weight = some w → reps = some r →
      (r ≤ 0 → e1rm weight reps = none) ∧
      (0 < r → e1rm weight reps = some (w * 36 / (37 - r)))) := by
  refine ⟨?_, ?_, ?_⟩
  · rintro rfl
    cases reps <;> rfl
  · rintro rfl
    cases weight <;> rfl
  · rintro w r rfl rfl
    constructor
    · intro hr
      simp [e1rm, hr]
    · intro hr
      have : ¬ r ≤ 0 := not_le.mpr hr
      simp [e1rm, this, mul_div_assoc]

/-- Witness for e1rm_c1 at a concrete input: weight 10, reps 5. -/
theorem e1rm_c1_witness :
    e1rm (some 10) (some 5) = some ((10 : ℚ) * 36 / (37 - 5)) :=
  ((e1rm_c1 (some 10) (some 5)).2.2 10 5 rfl rfl).2 (by norm_num)

/-- C7: for every reps strictly between 0 and 37 and every defined weight,
e1rm is defined (a finite rational, never the missing value); in
particular e1rm 100 8 = 100 * 36 / 29 = 3600 / 29. -/
theorem e1rm_c7 (w r : ℚ) (h0 : 0 < r) (h37 : r < 37) :
    (∃ v : ℚ, e1rm (some w) (some r) = some v) ∧
    (37 : ℚ) - r ≠ 0 ∧
    e1rm (some 100) (some 8) = some (3600 / 29) := by
  have hne : ¬ r ≤ 0 := not_le.mpr h0
  refine ⟨⟨w * (36 / (37 - r)), by simp [e1rm, hne]⟩, ?_, ?_⟩
  · intro h
    have : r = 37 := by linarith
    exact absurd this (by intro h37eq; rw [h37eq] at h37; exact lt_irrefl _ h37)
  · norm_num [e1rm]

/-- Witness for e1rm_c7 at weight 100, reps 8. -/
theorem e1rm_c7_witness :
    e1rm (some 100) (some 8) = some (3600 / 29) :=
  (e1rm_c7 100 8 (by norm_num) (by norm_num)).2.2

/-- C9: for every weight strictly positive and reps strictly above 37,
e1rm returns a defined, strictly negative value (it does not return the
missing value and the formula does not divide by zero). -/
theorem e1rm_c9 (w r : ℚ) (hw : 0 < w) (hr : 37 < r) :
    ∃ v : ℚ, e1rm (some w) (some r) = some v ∧ v < 0 := by
  have hpos : ¬ r ≤ 0 := not_le.mpr (lt_trans (by norm_num) hr)
  refine ⟨w * (36 / (37 - r)), by simp [e1rm, hpos], ?_⟩
  have hden : (37 : ℚ) - r < 0 := by linarith
  have hq : (36 : ℚ) / (37 - r) < 0 := div_neg_of_pos_of_neg (by norm_num) hden
  exact mul_neg_of_pos_of_neg hw hq

/-- Witness for e1rm_c9 at weight 100, reps 40. -/
theorem e1rm_c9_witness :
    ∃ v : ℚ, e1rm (some 100) (some 40) = some v ∧ v < 0 :=
  e1rm_c9 100 40 (by norm_num) (by norm_num)

/-! ## Settings: the singleton row, its accessor and its transactional update -/

/-- One row of the settings table (src/app.py lines 105-116): the six
nutrition targets plus the TDEE estimate.  The id column is the constant
primary key 1 and is not part of any claim, so it is omitted. -/
structure SettingsRow where
  calories : ℤ
  protein_g : ℤ
  fat_g : ℤ
  carb_g_rest : ℤ
  carb_g_lift : ℤ
  carb_g_football : ℤ
  tdee : ℤ
deriving DecidableEq, Repr

/-- The DEFAULT_MACROS dictionary (src/app.py lines 17-24). -/
structure Macros where
  calories : ℤ
  protein_g : ℤ
  fat_g : ℤ
  carb_g_rest : ℤ
  carb_g_lift : ℤ
  carb_g_football : ℤ
deriving DecidableEq, Repr

def DEFAULT_MACROS : Macros :=
  { calories := 2450, protein_g := 190, fat_g := 60,
    carb_g_rest := 220, carb_g_lift := 280, carb_g_football := 320 }

def TDEE_EST : ℤ := 3000

/-- The merged dictionary DEFAULT_MACROS with the added key tdee = TDEE_EST,
as built by get_settings when the table is empty (src/app.py line 150). -/
def defaultSettings : SettingsRow :=
  { calories := DEFAULT_MACROS.calories, protein_g := DEFAULT_MACROS.protein_g,
    fat_g := DEFAULT_MACROS.fat_g, carb_g_rest := DEFAULT_MACROS.carb_g_rest,
    carb_g_lift := DEFAULT_MACROS.carb_g_lift,
    carb_g_football := DEFAULT_MACROS.carb_g_football, tdee := TDEE_EST }

/-- Embedding of get_settings (src/app.py lines 148-150):

    def get_settings():
        s = load_table("settings")
        return s.iloc[0].to_dict() if len(s) else DEFAULT_MACROS | {"tdee": TDEE_EST}

The settings table is embedded as the list of its rows; iloc[0] is the
head of the list. -/
def get_settings (table : List SettingsRow) : SettingsRow :=
  match table with
  | [] => defaultSettings
  | r :: _ => r

/-- The seven column assignments of the UPDATE statement of update_settings
(src/app.py lines 154-159), in source order.  Each assignment is one
field overwrite on the working state of the transaction. -/
def settingsWrites (d : SettingsRow) : List (SettingsRow → SettingsRow) :=
  [fun s => { s with calories := d.calories },
   fun s => { s with protein_g := d.protein_g },
   fun s => { s with fat_g := d.fat_g },
   fun s => { s with carb_g_rest := d.carb_g_rest },
   fun s => { s with carb_g_lift := d.carb_g_lift },
   fun s => { s with carb_g_football := d.carb_g_football },
   fun s => { s with tdee := d.tdee }]

/-- Run a list of writes on a working copy of the row inside one
transaction.  failAt = some k models the storage engine failing just
before the k-th remaining write; the result none means the transaction
aborted, some s that it is ready to commit state s. -/
def applyWrites (s : SettingsRow) :
    List (SettingsRow → SettingsRow) → Option ℕ → Option SettingsRow
  | [], _ => some s
  | _ :: _, some 0 => none
  | f :: fs, some (k + 1) => applyWrites (f s) fs (some k)
  | f :: fs, none => applyWrites (f s) fs none

/-- Embedding of update_settings (src/app.py lines 152-159): the writes
run inside engine.begin(), a single transaction, so an abort rolls the
database back to the original row and only a full success commits. -/
def update_settings (db d : SettingsRow) (failAt : Option ℕ) : SettingsRow :=
  match applyWrites db (settingsWrites d) failAt with
  | some s => s
  | none => db

/-- C2: update_settings is atomic.  If the update fails at any point, every
field of the settings row (calories, protein_g, fat_g, carb_g_rest,
carb_g_lift, carb_g_football, tdee) is left unchanged; and a successful
update overwrites the whole row. -/
theorem update_settings_c2 (db d : SettingsRow) (k : ℕ)
    (hk : k < (settingsWrites d).length) :
    (update_settings db d (some k)).calories = db.calories ∧
    (update_settings db d (some k)).protein_g = db.protein_g ∧
    (update_settings db d (some k)).fat_g = db.fat_g ∧
    (update_settings db d (some k)).carb_g_rest = db.carb_g_rest ∧
    (update_settings db d (some k)).carb_g_lift = db.carb_g_lift ∧
    (update_settings db d (some k)).carb_g_football = db.carb_g_football ∧
    (update_settings db d (some k)).tdee = db.tdee ∧
    update_settings db d none = d := by
  have hlen : (settingsWrites d).length = 7 := rfl
  rw [hlen] at hk
  have habort : update_settings db d (some k) = db := by
    interval_cases k <;> rfl
  have hok : update_settings db d none = d := by
    cases d
    rfl
  rw [habort]
  exact ⟨rfl, rfl, rfl, rfl, rfl, rfl, rfl, hok⟩

/-- A concrete settings row used by the witnesses below. -/
def sampleSettings : SettingsRow :=
  { calories := 1, protein_g := 2, fat_g := 3, carb_g_rest := 4,
    carb_g_lift := 5, carb_g_football := 6, tdee := 7 }

/-- Witness for update_settings_c2: a failure at the fourth write leaves
the default row unchanged. -/
theorem update_settings_c2_witness :
    (update_settings defaultSettings sampleSettings (some 3)).calories
      = defaultSettings.calories :=
  (update_settings_c2 defaultSettings sampleSettings 3 (by decide)).1

/-- C8: get_settings returns the first (singleton) settings row when the
table is non-empty, and the constructed defaults (DEFAULT_MACROS merged
with the TDEE estimate) when the table is empty. -/
theorem get_settings_c8 (t : List SettingsRow) :
    (t = [] → get_settings t = defaultSettings) ∧
    (∀ r rest, t = r :: rest → get_settings t = r) := by
  constructor
  · rintro rfl
    rfl
  · rintro r rest rfl
    rfl

/-- Witness for get_settings_c8: the empty table yields the defaults and a
one-row table yields its row. -/
theorem get_settings_c8_witness :
    get_settings [] = defaultSettings ∧
    get_settings [sampleSettings] = sampleSettings :=
  ⟨(get_settings_c8 []).1 rfl,
   (get_settings_c8 [sampleSettings]).2 sampleSettings [] rfl⟩

/-! ## Dashboard weekly volume

Embedding of src/app.py lines 213-215:

    w["session_date"] = pd.to_datetime(w["session_date"])
    w["volume"] = w["sets"] * w["reps"] * w["weight"]
    vol = w.groupby([pd.Grouper(key="session_date", freq="W-MON"), "day_name"])["volume"].sum().reset_index()

Dates are embedded as the number of days since a fixed epoch chosen to be
a Monday, so that weekday (d) = d % 7 with 0 = Monday.  The pandas weekly
frequency "W-MON" is anchored on Monday with right-closed, right-labeled
bins: each bin is a Tuesday-through-Monday range labeled by the Monday
that ends it.  An ISO week by contrast runs Monday through Sunday. -/

/-- A row of the workouts dataframe as the Dashboard sees it (after
pd.to_datetime has parsed session_date). -/
structure DashboardRow where
  session_date : ℕ
  day_name : String
  exercise : String
  sets : ℤ
  reps : ℤ
  weight : ℚ
  rir : ℚ
  notes : String
deriving DecidableEq, Repr

/-- The volume column: sets * reps * weight. -/
def volume (e : DashboardRow) : ℚ := (e.sets : ℚ) * (e.reps : ℚ) * e.weight

/-- Label of the W-MON bin containing day d: the Monday ending the
Tuesday-through-Monday range that holds d (d itself when d is a Monday,
the next Monday otherwise). -/
def wMonBin (d : ℕ) : ℕ := if d % 7 = 0 then d else d + (7 - d % 7)

/-- The Monday starting the ISO week (Monday through Sunday) containing
day d.  This is the grouping the specification describes. -/
def isoWeekStart (d : ℕ) : ℕ := d - d % 7

/-- The groupby key the source actually uses: (W-MON bin, day_name). -/
def groupKey (e : DashboardRow) : ℕ × String := (wMonBin e.session_date, e.day_name)

/-- The groupby key the specification describes: (ISO week starting
Monday, day_name). -/
def isoGroupKey (e : DashboardRow) : ℕ × String :=
  (isoWeekStart e.session_date, e.day_name)

/-- Accumulate one value into the group keyed k of a running grouped
result, creating the group if it is new — the incremental heart of
groupby(...).sum(). -/
def addToGroup (k : ℕ × String) (v : ℚ) :
    List ((ℕ × String) × ℚ) → List ((ℕ × String) × ℚ)
  | [] => [(k, v)]
  | g :: gs => if g.1 = k then (g.1, g.2 + v) :: gs else g :: addToGroup k v gs

/-- The Dashboard weekly-volume computation: fold every entry's volume
into the group of its (W-MON bin, day_name) key. -/
def weeklyVolume (entries : List DashboardRow) : List ((ℕ × String) × ℚ) :=
  entries.foldl (fun acc e => addToGroup (groupKey e) (volume e) acc) []

/-- Read the sum of a key off a grouped result (0 when the key has no
group there). -/
def groupSum (gs : List ((ℕ × String) × ℚ)) (k : ℕ × String) : ℚ :=
  ((gs.filter (fun g => g.1 = k)).map Prod.snd).sum

/-- The grouped total stated by the claim, computed directly: the sum of
the volumes of the entries whose key is k, for an arbitrary key
function. -/
def specSum (key : DashboardRow → ℕ × String) (entries : List DashboardRow)
    (k : ℕ × String) : ℚ :=
  ((entries.filter (fun e => key e = k)).map volume).sum

lemma groupSum_nil (k : ℕ × String) : groupSum [] k = 0 := rfl

lemma groupSum_cons (g : (ℕ × String) × ℚ) (gs : List ((ℕ × String) × ℚ))
    (k : ℕ × String) :
    groupSum (g :: gs) k = (if g.1 = k then g.2 else 0) + groupSum gs k := by
  by_cases h : g.1 = k <;> simp [groupSum, List.filter_cons, h]

lemma groupSum_addToGroup (k k' : ℕ × String) (v : ℚ)
    (acc : List ((ℕ × String) × ℚ)) :
    groupSum (addToGroup k' v acc) k
      = groupSum acc k + (if k' = k then v else 0) := by
  induction acc with
  | nil =>
      by_cases h : k' = k <;> simp [addToGroup, groupSum_cons, groupSum_nil, h]
  | cons g gs ih =>
      by_cases hg : g.1 = k'
      · rw [addToGroup, if_pos hg, groupSum_cons, groupSum_cons]
        subst hg
        by_cases h : g.1 = k
        · simp [h]
          ring
        · simp [h]
      · rw [addToGroup, if_neg hg, groupSum_cons, groupSum_cons, ih]
        ring

lemma specSum_cons (key : DashboardRow → ℕ × String) (e : DashboardRow)
    (es : List DashboardRow) (k : ℕ × String) :
    specSum key (e :: es) k
      = (if key e = k then volume e else 0) + specSum key es k := by
  by_cases h : key e = k <;> simp [specSum, List.filter_cons, h]

lemma weeklyVolume_foldl (es : List DashboardRow)
    (acc : List ((ℕ × String) × ℚ)) (k : ℕ × String) :
    groupSum (es.foldl (fun a e => addToGroup (groupKey e) (volume e) a) acc) k
      = groupSum acc k + specSum groupKey es k := by
  induction es generalizing acc with
  | nil => simp [specSum, List.foldl]
  | cons e es ih =>
      rw [List.foldl_cons, ih, groupSum_addToGroup, specSum_cons]
      ring

/-- Reading any key off the Dashboard grouped result gives the total
volume of the entries whose (W-MON bin, day_name) key it is. -/
lemma groupSum_weeklyVolume (es : List DashboardRow) (k : ℕ × String) :
    groupSum (weeklyVolume es) k = specSum groupKey es k := by
  rw [weeklyVolume, weeklyVolume_foldl, groupSum_nil, zero_add]

/-- Permutation invariance of the per-key totals. -/
lemma specSum_perm (key : DashboardRow → ℕ × String)
    {es es' : List DashboardRow} (h : es.Perm es') (k : ℕ × String) :
    specSum key es k = specSum key es' k :=
  List.Perm.sum_eq (List.Perm.map volume (List.Perm.filter _ h))

/-- A Monday entry: day 0 of the epoch, volume 1. -/
def rowMon : DashboardRow :=
  { session_date := 0, day_name := "Monday - Push", exercise := "Incline DB Press",
    sets := 1, reps := 1, weight := 1, rir := 1, notes := "" }

/-- The next day, a Tuesday, with the same day_name text and volume 2. -/
def rowTue : DashboardRow :=
  { session_date := 1, day_name := "Monday - Push", exercise := "Incline DB Press",
    sets := 1, reps := 1, weight := 2, rir := 1, notes := "" }

/-- A second Monday entry sharing rowMon's key, volume 3. -/
def rowMon3 : DashboardRow :=
  { session_date := 0, day_name := "Monday - Push", exercise := "Flat DB Press",
    sets := 1, reps := 1, weight := 3, rir := 1, notes := "" }

/-- C3 counterexample: the grouped sums weeklyVolume returns are not the
sums grouped by (ISO week starting Monday, day_name).  A Monday entry and
a Tuesday entry of the same day_name fall in the same ISO week (total 3)
but the code splits them into two W-MON bins, leaving 1 under the ISO
key of the Monday. -/
theorem weeklyVolume_c3_counterexample :
    groupSum (weeklyVolume [rowMon, rowTue]) (isoGroupKey rowMon)
      ≠ specSum isoGroupKey [rowMon, rowTue] (isoGroupKey rowMon) := by
  have hL : groupSum (weeklyVolume [rowMon, rowTue]) (isoGroupKey rowMon) = 1 := by
    norm_num [weeklyVolume, groupSum, addToGroup, groupKey, isoGroupKey,
      wMonBin, isoWeekStart, volume, rowMon, rowTue, List.filter_cons]
  have hR : specSum isoGroupKey [rowMon, rowTue] (isoGroupKey rowMon) = 3 := by
    norm_num [specSum, isoGroupKey, isoWeekStart, volume, rowMon, rowTue,
      List.filter_cons]
  rw [hL, hR]
  norm_num

/-- C3 (amended): for every list of workout entries, weeklyVolume computes
volume = sets * reps * weight per entry and returns the sums of volume
grouped by the pair (W-MON weekly bin — the Tuesday-through-Monday week
labeled by its ending Monday — and day_name). -/
theorem weeklyVolume_c3 (entries : List DashboardRow) (k : ℕ × String) :
    groupSum (weeklyVolume entries) k
      = ((entries.filter (fun e => groupKey e = k)).map volume).sum :=
  groupSum_weeklyVolume entries k

/-- C5: weeklyVolume is order-independent — every permutation of the
entries yields the same per-key grouped sums — and additive: for two
entries sharing a (week, day_name) group, the group's sum over the
two-entry list is volume a + volume b. -/
theorem weeklyVolume_c5 (es es' : List DashboardRow) (h : es.Perm es')
    (a b : DashboardRow) (hab : groupKey a = groupKey b) :
    (∀ k, groupSum (weeklyVolume es) k = groupSum (weeklyVolume es') k) ∧
    groupSum (weeklyVolume [a, b]) (groupKey a) = volume a + volume b := by
  constructor
  · intro k
    rw [groupSum_weeklyVolume, groupSum_weeklyVolume]
    exact specSum_perm groupKey h k
  · rw [groupSum_weeklyVolume, specSum_cons, specSum_cons]
    simp [specSum, hab.symm]

/-- Witness for weeklyVolume_c5: the two concrete Monday entries, in both
orders. -/
theorem weeklyVolume_c5_witness :
    groupSum (weeklyVolume [rowMon, rowMon3]) ((0 : ℕ), "Monday - Push")
      = groupSum (weeklyVolume [rowMon3, rowMon]) ((0 : ℕ), "Monday - Push") ∧
    groupSum (weeklyVolume [rowMon, rowMon3]) (groupKey rowMon)
      = volume rowMon + volume rowMon3 :=
  ⟨(weeklyVolume_c5 [rowMon, rowMon3] [rowMon3, rowMon]
      (List.Perm.swap rowMon3 rowMon []) rowMon rowMon3 (by decide)).1
      ((0 : ℕ), "Monday - Push"),
   (weeklyVolume_c5 [rowMon, rowMon3] [rowMon3, rowMon]
      (List.Perm.swap rowMon3 rowMon []) rowMon rowMon3 (by decide)).2⟩

/-! ## write_photo and the PIL thumbnail size arithmetic

write_photo (src/app.py lines 139-146) opens the upload, converts to RGB,
calls img.thumbnail((1280, 1280)), re-encodes as JPEG and stores the
base64 payload.  Conversion, JPEG encoding and base64 leave the pixel
dimensions unchanged, so the stored dimensions are exactly what
Image.thumbnail produces.  PIL computes the target size as follows
(Pillow, Image.thumbnail): with (x, y) = (1280, 1280), if x >= width and
y >= height the image is left as is; otherwise aspect = width / height
and one side is scaled with round_aspect, which picks floor or ceil of
the exact value (whichever is nearer by the given key, the floor on
ties, as Python min keeps the first argument) and clamps below at 1.
Pixel counts are exact integers and the ratio arithmetic is embedded
over the rationals. -/

/-- PIL round_aspect: max(min(floor number, ceil number, key), 1). -/
def round_aspect (v : ℚ) (key : ℤ → ℚ) : ℤ :=
  max (if key ⌈v⌉ < key ⌊v⌋ then ⌈v⌉ else ⌊v⌋) 1

/-- Dimensions produced by img.thumbnail((1280, 1280)) on a w-by-h
image, following PIL Image.thumbnail line by line with x = y = 1280. -/
def thumbnailDims (w h : ℕ) : ℕ × ℕ :=
  if 1280 ≥ w ∧ 1280 ≥ h then (w, h)
  else
    let aspect : ℚ := (w : ℚ) / (h : ℚ)
    if (1280 : ℚ) / 1280 ≥ aspect then
      ((round_aspect ((1280 : ℚ) * aspect)
          (fun n => |aspect - (n : ℚ) / 1280|)).toNat, 1280)
    else
      (1280, (round_aspect ((1280 : ℚ) / aspect)
          (fun n => if n = 0 then 0 else |aspect - (1280 : ℚ) / (n : ℚ)|)).toNat)

/-- Dimensions of the image stored by write_photo: thumbnail is the only
resizing step between Image.open and the stored payload. -/
def write_photo_dims (w h : ℕ) : ℕ × ℕ := thumbnailDims w h

lemma round_aspect_toNat_le (v : ℚ) (key : ℤ → ℚ) (B : ℕ) (hB : 1 ≤ B)
    (hv : v ≤ (B : ℚ)) : (round_aspect v key).toNat ≤ B := by
  have hceil : ⌈v⌉ ≤ (B : ℤ) := Int.ceil_le.mpr (by exact_mod_cast hv)
  have hfloor : ⌊v⌋ ≤ (B : ℤ) := le_trans (Int.floor_le_ceil v) hceil
  have hch : (if key ⌈v⌉ < key ⌊v⌋ then ⌈v⌉ else ⌊v⌋) ≤ (B : ℤ) := by
    split
    · exact hceil
    · exact hfloor
  have hmax : round_aspect v key ≤ (B : ℤ) :=
    max_le hch (by exact_mod_cast hB)
  exact Int.toNat_le.mpr hmax

/-- C4: for every input image (positive dimensions), the image stored by
write_photo has width and height both at most 1280. -/
theorem write_photo_c4 (w h : ℕ) (hw : 1 ≤ w) (hh : 1 ≤ h) :
    (write_photo_dims w h).1 ≤ 1280 ∧ (write_photo_dims w h).2 ≤ 1280 := by
  rw [write_photo_dims, thumbnailDims]
  by_cases hsmall : 1280 ≥ w ∧ 1280 ≥ h
  · rw [if_pos hsmall]
    exact hsmall
  · rw [if_neg hsmall]
    have hhpos : (0 : ℚ) < (h : ℚ) := by exact_mod_cast hh
    have hwpos : (0 : ℚ) < (w : ℚ) := by exact_mod_cast hw
    by_cases hasp : (1280 : ℚ) / 1280 ≥ (w : ℚ) / (h : ℚ)
    · rw [if_pos hasp]
      refine ⟨?_, le_refl 1280⟩
      have h1 : (w : ℚ) / (h : ℚ) ≤ 1 := by
        have : (1280 : ℚ) / 1280 = 1 := by norm_num
        rw [this] at hasp
        exact hasp
      have hv : (1280 : ℚ) * ((w : ℚ) / (h : ℚ)) ≤ (1280 : ℚ) :=
        mul_le_of_le_one_right (by norm_num) h1
      exact round_aspect_toNat_le _ _ 1280 (by norm_num) hv
    · rw [if_neg hasp]
      refine ⟨le_refl 1280, ?_⟩
      have h1 : (1 : ℚ) ≤ (w : ℚ) / (h : ℚ) := by
        have h1' : (1280 : ℚ) / 1280 < (w : ℚ) / (h : ℚ) := lt_of_not_le hasp
        have : (1280 : ℚ) / 1280 = 1 := by norm_num
        rw [this] at h1'
        exact le_of_lt h1'
      have hv : (1280 : ℚ) / ((w : ℚ) / (h : ℚ)) ≤ (1280 : ℚ) :=
        div_le_self (by norm_num) h1
      exact round_aspect_toNat_le _ _ 1280 (by norm_num) hv

/-- Witness for write_photo_c4 on a 2560 x 1440 input. -/
theorem write_photo_c4_witness :
    (write_photo_dims 2560 1440).1 ≤ 1280 ∧ (write_photo_dims 2560 1440).2 ≤ 1280 :=
  write_photo_c4 2560 1440 (by norm_num) (by norm_num)

/-- C10: write_photo never enlarges.  For an input already within
1280 x 1280 the thumbnail step returns without resizing, so the stored
image keeps exactly the input dimensions. -/
theorem write_photo_c10 (w h : ℕ) (hw : w ≤ 1280) (hh : h ≤ 1280) :
    write_photo_dims w h = (w, h) := by
  rw [write_photo_dims, thumbnailDims, if_pos ⟨hw, hh⟩]

/-- Witness for write_photo_c10 on an 800 x 600 input. -/
theorem write_photo_c10_witness : write_photo_dims 800 600 = (800, 600) :=
  write_photo_c10 800 600 (by norm_num) (by norm_num)

/-! ## CSV export and import of the workouts table

Export (src/app.py lines 341-345): load_table("workouts") runs
SELECT * FROM workouts — so the dataframe, and hence the file written by
df.to_csv(index=False), carries the id primary-key column along with the
eight data columns.  The CSV text is abstracted as its sequence of
parsed records: to_csv followed by pd.read_csv is the identity on these
fields up to numeric formatting, which is exactly the modulus the claim
grants.

Import (src/app.py lines 350-354): pd.read_csv followed by
df.to_sql("workouts", if_exists="append", index=False).  to_sql
inserts every dataframe column, id included; SQLite rejects an explicit
id equal to an existing primary key (UNIQUE constraint failed), and
to_sql runs its inserts in one transaction, so a single conflict fails
the whole import with no row appended. -/

/-- A row of the workouts table: the autoincrement primary key id plus
the eight data columns (src/app.py lines 73-85). -/
structure WorkoutRow where
  id : ℕ
  session_date : String
  day_name : String
  exercise : String
  sets : ℤ
  reps : ℤ
  weight : ℚ
  rir : ℚ
  notes : String
deriving DecidableEq, Repr

/-- CSV export of the workouts table, abstracted to its parsed records:
every column of SELECT *, the id included. -/
def exportWorkouts (db : List WorkoutRow) : List WorkoutRow := db

/-- True when some id of the incoming records collides, either with an id
already in the table or with another incoming record. -/
def hasDupIds : List WorkoutRow → Bool
  | [] => false
  | r :: rs => rs.any (fun r0 => r0.id = r.id) || hasDupIds rs

def importConflict (csv db : List WorkoutRow) : Bool :=
  csv.any (fun r => db.any (fun r0 => r0.id = r.id)) || hasDupIds csv

/-- CSV import into the workouts table: all-or-nothing append, failing
whenever an inserted id violates the primary key. -/
def importWorkouts (csv db : List WorkoutRow) : Except String (List WorkoutRow) :=
  if importConflict csv db then
    Except.error "UNIQUE constraint failed: workouts.id"
  else
    Except.ok (db ++ csv)

/-- A concrete workouts row with id 1. -/
def sampleWorkout : WorkoutRow :=
  { id := 1, session_date := "2024-01-01", day_name := "Monday - Push",
    exercise := "Incline DB Press", sets := 4, reps := 8, weight := 25,
    rir := 1.5, notes := "" }

/-- A concrete workouts row with id 2. -/
def sampleWorkout2 : WorkoutRow :=
  { id := 2, session_date := "2024-01-02", day_name := "Tuesday - Lower A (Squat)",
    exercise := "Leg Press (full depth)", sets := 4, reps := 10, weight := 140,
    rir := 2, notes := "" }

lemma hasDupIds_eq_false {l : List WorkoutRow}
    (h : (l.map WorkoutRow.id).Nodup) : hasDupIds l = false := by
  induction l with
  | nil => rfl
  | cons r rs ih =>
      rw [List.map_cons, List.nodup_cons] at h
      rw [hasDupIds, ih h.2, Bool.or_false, List.any_eq_false]
      intro r0 hr0
      simp only [decide_eq_true_eq]
      intro hid
      exact h.1 (List.mem_map.mpr ⟨r0, hr0, hid⟩)

lemma importConflict_eq_false {csv db : List WorkoutRow}
    (hdisj : ∀ r ∈ csv, ∀ r0 ∈ db, ¬ r0.id = r.id)
    (hnodup : (csv.map WorkoutRow.id).Nodup) :
    importConflict csv db = false := by
  rw [importConflict, hasDupIds_eq_false hnodup, Bool.or_false, List.any_eq_false]
  intro r hr
  rw [Bool.not_eq_true, List.any_eq_false]
  intro r0 hr0
  simp only [decide_eq_true_eq]
  exact hdisj r hr r0 hr0

/-- C6 counterexample: exporting a one-row workouts table and importing
the file straight back fails on the id primary key, so nothing is
appended — the round trip does not preserve the exported rows. -/
theorem csv_roundtrip_c6_counterexample :
    importWorkouts (exportWorkouts [sampleWorkout]) [sampleWorkout]
      = Except.error "UNIQUE constraint failed: workouts.id" := by
  rw [importWorkouts]
  have hc : importConflict (exportWorkouts [sampleWorkout]) [sampleWorkout] = true := by
    simp [importConflict, exportWorkouts]
  rw [if_pos hc]

/-- C6 (amended): the export-to-import round trip preserves row count and
field values only when the exported ids are pairwise distinct and
disjoint from the ids already in the target table (for instance when
importing into an empty table); then the import appends exactly the
exported records.  Importing the exported file back into the same
non-empty table instead fails on the id primary-key conflict and appends
nothing. -/
theorem csv_roundtrip_c6 (db target : List WorkoutRow)
    (hdisj : ∀ r ∈ db, ∀ r0 ∈ target, ¬ r0.id = r.id)
    (hnodup : (db.map WorkoutRow.id).Nodup) :
    (importWorkouts (exportWorkouts db) target = Except.ok (target ++ db) ∧
     (target ++ db).length = target.length + db.length ∧
     (target ++ db).drop target.length = db) ∧
    (∀ r rest, db = r :: rest →
      importWorkouts (exportWorkouts db) db
        = Except.error "UNIQUE constraint failed: workouts.id") := by
  constructor
  · have hc : importConflict (exportWorkouts db) target = false :=
      importConflict_eq_false hdisj hnodup
    rw [importWorkouts, if_neg (by rw [hc]; exact Bool.false_ne_true)]
    exact ⟨rfl, by rw [List.length_append], by rw [List.drop_left]⟩
  · rintro r rest rfl
    have hc : importConflict (exportWorkouts (r :: rest)) (r :: rest) = true := by
      simp [importConflict, exportWorkouts, List.any_cons]
    rw [importWorkouts, if_pos hc]

/-- Witness for csv_roundtrip_c6: importing the export of a table holding
only id 2 into a table holding only id 1 appends the exported row. -/
theorem csv_roundtrip_c6_witness :
    importWorkouts (exportWorkouts [sampleWorkout2]) [sampleWorkout]
      = Except.ok ([sampleWorkout] ++ [sampleWorkout2]) :=
  ((csv_roundtrip_c6 [sampleWorkout2] [sampleWorkout]
      (by
        intro r hr r0 hr0
        rw [List.mem_singleton] at hr hr0
        subst hr
        subst hr0
        simp [sampleWorkout, sampleWorkout2])
      (by simp)).1).1

end TrainerTracker
